import Mathlib

/-!
Verification development for the slow-path enhancement pipeline of the
`vrm-saas` python backend.  The embedding follows the source files
`streaming_parser.py`, `app/vis_processor.py`, `app/queues.py`,
`app/chat_history_manager.py` and `agent/enhanced_mcp_client_agent.py`.
Python strings are modelled as `List Char` (python `str` is a sequence of
code points); machine-level details that no claim depends on (unicode
whitespace beyond ASCII in `re`'s `\s`, lone surrogates from `\uXXXX`
escapes) are modelled on their ASCII/scalar subset and noted where they
occur.
-/

namespace VrmSaas

/-- The set of characters stripped by python `str.strip()` and split on by
`str.split()` (the ASCII whitespace subset). -/
def pyIsSpace (c : Char) : Bool :=
  c = ' ' || c = '\t' || c = '\n' || c = '\x0d' || c = '\x0b' || c = '\x0c'

/-- Python `str.strip()` with no arguments: whitespace removed from both ends. -/
def pyStrip (cs : List Char) : List Char :=
  ((cs.dropWhile pyIsSpace).reverse.dropWhile pyIsSpace).reverse

/-- Helper for python `str.split()`: accumulates the current word (reversed)
and breaks on whitespace, discarding empty words. -/
def pySplitGo : List Char → List Char → List (List Char)
  | acc, [] => if acc = [] then [] else [acc.reverse]
  | acc, c :: rest =>
    if pyIsSpace c then
      if acc = [] then pySplitGo [] rest else acc.reverse :: pySplitGo [] rest
    else pySplitGo (c :: acc) rest

/-- Python `str.split()` with no arguments: split on whitespace runs, no
empty words. -/
def pySplit (cs : List Char) : List (List Char) := pySplitGo [] cs

/-- Python `str.lower()` (ASCII subset, which is all the parser feeds it:
the captured `displayEnhancement` token). -/
def pyLower (cs : List Char) : List Char := cs.map Char.toLower

/-- Drops `p` from the front of `cs`, or fails. -/
def dropPrefixL : List Char → List Char → Option (List Char)
  | [], cs => some cs
  | _ :: _, [] => none
  | p :: ps, c :: cs => if p = c then dropPrefixL ps cs else none

/-- Boolean list-prefix test used by the delta-law theorems. -/
def isPrefixL : List Char → List Char → Bool
  | [], _ => true
  | _ :: _, [] => false
  | p :: ps, c :: cs => p = c && isPrefixL ps cs

/-! ## JSON values and `json.loads`

`streaming_parser.py` calls `json.loads` in three places: on the lowered
`displayEnhancement` token, on a quoted delta to unescape it, and on the
whole buffer in `finalize()`.  The model below follows CPython's strict
`json` decoder: JSON whitespace only between tokens, control characters
rejected inside strings, the `NaN`/`Infinity` extensions accepted. -/

/-- A parsed JSON value.  Number lexemes are kept verbatim: no claim
inspects numeric values. -/
inductive JsonValue where
  | null
  | bool (b : Bool)
  | num (lexeme : List Char)
  | str (s : List Char)
  | arr (elems : List JsonValue)
  | obj (fields : List (List Char × JsonValue))

/-- The `self.enhancement_flag is False` test from `streaming_parser.py`
(python identity on the singleton `False`). -/
def isJsonFalse : Option JsonValue → Bool
  | some (.bool false) => true
  | _ => false

/-- JSON inter-token whitespace (`json.decoder` skips exactly these). -/
def jsonWsChar (c : Char) : Bool := c = ' ' || c = '\t' || c = '\n' || c = '\x0d'

/-- Skips JSON inter-token whitespace. -/
def skipJsonWs (cs : List Char) : List Char := cs.dropWhile jsonWsChar

/-- Hex digit value, for `\uXXXX` escapes. -/
def hexDigitVal (c : Char) : Option Nat :=
  if '0' ≤ c ∧ c ≤ '9' then some (c.toNat - '0'.toNat)
  else if 'a' ≤ c ∧ c ≤ 'f' then some (c.toNat - 'a'.toNat + 10)
  else if 'A' ≤ c ∧ c ≤ 'F' then some (c.toNat - 'A'.toNat + 10)
  else none

/-- Value of four hex digits. -/
def hex4Val (a b c d : Char) : Option Nat :=
  match hexDigitVal a, hexDigitVal b, hexDigitVal c, hexDigitVal d with
  | some x, some y, some z, some w => some (((x * 16 + y) * 16 + z) * 16 + w)
  | _, _, _, _ => none

/-- Parses the remainder of a JSON string literal (the opening quote already
consumed), returning the unescaped content and the input after the closing
quote.  Strict mode: raw control characters and unknown escapes fail.
Surrogate pairs in `\uXXXX` escapes are combined; a lone surrogate (legal
for python `str`, unrepresentable as a Lean `Char`) falls back through
`Char.ofNat` — no claim exercises that corner. -/
def parseJStringRest : Nat → List Char → Option (List Char × List Char)
  | 0, _ => none
  | _, [] => none
  | _ + 1, '"' :: rest => some ([], rest)
  | fuel + 1, '\\' :: rest =>
    match rest with
    | [] => none
    | 'u' :: h1 :: h2 :: h3 :: h4 :: rest2 =>
      match hex4Val h1 h2 h3 h4 with
      | none => none
      | some n =>
        if 0xd800 ≤ n ∧ n ≤ 0xdbff then
          match rest2 with
          | '\\' :: 'u' :: g1 :: g2 :: g3 :: g4 :: rest3 =>
            match hex4Val g1 g2 g3 g4 with
            | some m =>
              if 0xdc00 ≤ m ∧ m ≤ 0xdfff then
                (parseJStringRest fuel rest3).map (fun r =>
                  (Char.ofNat (0x10000 + (n - 0xd800) * 0x400 + (m - 0xdc00)) :: r.1, r.2))
              else (parseJStringRest fuel rest2).map (fun r => (Char.ofNat n :: r.1, r.2))
            | none => (parseJStringRest fuel rest2).map (fun r => (Char.ofNat n :: r.1, r.2))
          | _ => (parseJStringRest fuel rest2).map (fun r => (Char.ofNat n :: r.1, r.2))
        else (parseJStringRest fuel rest2).map (fun r => (Char.ofNat n :: r.1, r.2))
    | e :: rest2 =>
      match e with
      | '"' => (parseJStringRest fuel rest2).map (fun r => ('"' :: r.1, r.2))
      | '\\' => (parseJStringRest fuel rest2).map (fun r => ('\\' :: r.1, r.2))
      | '/' => (parseJStringRest fuel rest2).map (fun r => ('/' :: r.1, r.2))
      | 'b' => (parseJStringRest fuel rest2).map (fun r => ('\x08' :: r.1, r.2))
      | 'f' => (parseJStringRest fuel rest2).map (fun r => ('\x0c' :: r.1, r.2))
      | 'n' => (parseJStringRest fuel rest2).map (fun r => ('\n' :: r.1, r.2))
      | 'r' => (parseJStringRest fuel rest2).map (fun r => ('\x0d' :: r.1, r.2))
      | 't' => (parseJStringRest fuel rest2).map (fun r => ('\t' :: r.1, r.2))
      | _ => none
  | fuel + 1, c :: rest =>
    if c.toNat < 0x20 then none
    else (parseJStringRest fuel rest).map (fun r => (c :: r.1, r.2))

/-- Parses the remainder of a JSON string literal with enough fuel for its
own input (every step consumes at least one character). -/
def parseJString (cs : List Char) : Option (List Char × List Char) :=
  parseJStringRest (cs.length + 1) cs

/-- Digits consumed from the front, with the rest. -/
def spanDigits (cs : List Char) : List Char × List Char :=
  (cs.takeWhile Char.isDigit, cs.dropWhile Char.isDigit)

/-- Parses the optional fraction and exponent after the integer part of a
JSON number, given the lexeme so far. -/
def parseJNumTail (lex : List Char) (cs : List Char) : Option (JsonValue × List Char) :=
  let afterFrac : Option (List Char × List Char) :=
    match cs with
    | '.' :: r =>
      match spanDigits r with
      | ([], _) => none
      | (ds, r2) => some (lex ++ '.' :: ds, r2)
    | _ => some (lex, cs)
  match afterFrac with
  | none => none
  | some (lex2, cs2) =>
    match cs2 with
    | 'e' :: r | 'E' :: r =>
      let (sgn, r2) : List Char × List Char :=
        match r with
        | '+' :: r3 => (['+'], r3)
        | '-' :: r3 => (['-'], r3)
        | _ => ([], r)
      match spanDigits r2 with
      | ([], _) => none
      | (ds, r3) => some (.num (lex2 ++ 'e' :: sgn ++ ds), r3)
    | _ => some (.num lex2, cs2)

/-- Parses a JSON number (or the `Infinity`/`-Infinity`/`NaN` extensions
CPython accepts by default). -/
def parseJNum (cs : List Char) : Option (JsonValue × List Char) :=
  match cs with
  | 'N' :: 'a' :: 'N' :: r => some (.num ['N', 'a', 'N'], r)
  | 'I' :: 'n' :: 'f' :: 'i' :: 'n' :: 'i' :: 't' :: 'y' :: r =>
    some (.num "Infinity".data, r)
  | '-' :: 'I' :: 'n' :: 'f' :: 'i' :: 'n' :: 'i' :: 't' :: 'y' :: r =>
    some (.num "-Infinity".data, r)
  | _ =>
    let (neg, r1) : List Char × List Char :=
      match cs with
      | '-' :: r => (['-'], r)
      | _ => ([], cs)
    match r1 with
    | '0' :: r2 => parseJNumTail (neg ++ ['0']) r2
    | c :: r2 =>
      if c.isDigit ∧ c ≠ '0' then
        match spanDigits r2 with
        | (ds, r3) => parseJNumTail (neg ++ c :: ds) r3
      else none
    | [] => none

mutual

/-- Parses one JSON value (leading whitespace already skipped).  Fuel bounds
the nesting depth; `pyJsonLoads` supplies more fuel than any input can use. -/
def parseJsonValue : Nat → List Char → Option (JsonValue × List Char)
  | 0, _ => none
  | fuel + 1, cs =>
    match cs with
    | 'n' :: 'u' :: 'l' :: 'l' :: r => some (.null, r)
    | 't' :: 'r' :: 'u' :: 'e' :: r => some (.bool true, r)
    | 'f' :: 'a' :: 'l' :: 's' :: 'e' :: r => some (.bool false, r)
    | '"' :: r => (parseJString r).map (fun p => (.str p.1, p.2))
    | '[' :: r =>
      match skipJsonWs r with
      | ']' :: r2 => some (.arr [], r2)
      | r1 => (parseJsonElems fuel r1).map (fun p => (.arr p.1, p.2))
    | '\x7b' :: r =>
      match skipJsonWs r with
      | '\x7d' :: r2 => some (.obj [], r2)
      | r1 => (parseJsonMembers fuel r1).map (fun p => (.obj p.1, p.2))
    | _ => parseJNum cs

/-- Parses the elements of a non-empty JSON array up to and including `]`. -/
def parseJsonElems : Nat → List Char → Option (List JsonValue × List Char)
  | 0, _ => none
  | fuel + 1, cs =>
    match parseJsonValue fuel cs with
    | none => none
    | some (v, r) =>
      match skipJsonWs r with
      | ',' :: r2 => (parseJsonElems fuel (skipJsonWs r2)).map (fun p => (v :: p.1, p.2))
      | ']' :: r2 => some ([v], r2)
      | _ => none

/-- Parses the members of a non-empty JSON object up to and including the
closing brace. -/
def parseJsonMembers : Nat → List Char → Option (List (List Char × JsonValue) × List Char)
  | 0, _ => none
  | fuel + 1, cs =>
    match cs with
    | '"' :: r =>
      match parseJString r with
      | none => none
      | some (k, r1) =>
        match skipJsonWs r1 with
        | ':' :: r2 =>
          match parseJsonValue fuel (skipJsonWs r2) with
          | none => none
          | some (v, r3) =>
            match skipJsonWs r3 with
            | ',' :: r4 =>
              (parseJsonMembers fuel (skipJsonWs r4)).map (fun p => ((k, v) :: p.1, p.2))
            | '\x7d' :: r4 => some ([(k, v)], r4)
            | _ => none
        | _ => none
    | _ => none

end

/-- Python `json.loads`: one JSON document, whitespace allowed around it,
nothing after it. -/
def pyJsonLoads (cs : List Char) : Option JsonValue :=
  let r := skipJsonWs cs
  match parseJsonValue (r.length + 1) r with
  | some (v, rest) => if skipJsonWs rest = [] then some v else none
  | none => none

/-! ## `EnhancementStreamingParser` (`streaming_parser.py`)

State: the raw buffer, the three per-field already-captured values
(`field_buffers`), the parsed `displayEnhancement` value
(`enhancement_flag`, any JSON value `json.loads` may return) and the
`voice_disabled` switch.  The unused attributes `current_field`,
`voice_buffer`, `display_buffer` and `parsing_state` are written but never
read in the source and are omitted.  -/

/-- The three tracked decision fields. -/
inductive FieldName where
  | displayEnhancement
  | displayEnhancedText
  | voiceOverText
deriving DecidableEq

/-- The JSON key text of a tracked field. -/
def fieldNameChars : FieldName → List Char
  | .displayEnhancement => "displayEnhancement".data
  | .displayEnhancedText => "displayEnhancedText".data
  | .voiceOverText => "voiceOverText".data

/-- The mutable state of `EnhancementStreamingParser`. -/
structure ParserState where
  buffer : List Char
  fieldDisplayEnhancement : List Char
  fieldDisplayEnhancedText : List Char
  fieldVoiceOverText : List Char
  enhancementFlag : Option JsonValue
  voiceDisabled : Bool

/-- The freshly constructed parser (`__init__` / `reset`). -/
def initParser : ParserState :=
  { buffer := [], fieldDisplayEnhancement := [], fieldDisplayEnhancedText := [],
    fieldVoiceOverText := [], enhancementFlag := none, voiceDisabled := false }

/-- Reads `self.field_buffers[field_name]`. -/
def getFieldBuffer (s : ParserState) : FieldName → List Char
  | .displayEnhancement => s.fieldDisplayEnhancement
  | .displayEnhancedText => s.fieldDisplayEnhancedText
  | .voiceOverText => s.fieldVoiceOverText

/-- Writes `self.field_buffers[field_name]`. -/
def setFieldBuffer (s : ParserState) : FieldName → List Char → ParserState
  | .displayEnhancement, v => { s with fieldDisplayEnhancement := v }
  | .displayEnhancedText, v => { s with fieldDisplayEnhancedText := v }
  | .voiceOverText, v => { s with fieldVoiceOverText := v }

/-- Greedy capture of the group in the pattern
`"fieldName"\s*:\s*"([^"]*(?:\\.[^"]*)*)"?` starting at the character after
the opening quote: the longest prefix in which every `"` is immediately
preceded by a character `\` (the regex lets any backslash escape a quote,
with backtracking re-designating a backslash consumed by `[^"]*`).
`prev` is the previous character of the original text. -/
def captureBody : Option Char → List Char → List Char
  | _, [] => []
  | prev, c :: rest =>
    if c = '"' then
      if prev = some '\\' then c :: captureBody (some c) rest else []
    else c :: captureBody (some c) rest

/-- Tries the field pattern anchored at the current position: the quoted
field name, `\s*`, a colon, `\s*`, then the mandatory opening quote.
Returns the text after the opening quote. -/
def matchFieldAt (name : List Char) (cs : List Char) : Option (List Char) :=
  match dropPrefixL ('"' :: name ++ ['"']) cs with
  | none => none
  | some r1 =>
    match r1.dropWhile pyIsSpace with
    | ':' :: r2 =>
      match r2.dropWhile pyIsSpace with
      | '"' :: r3 => some r3
      | _ => none
    | _ => none

/-- `re.search` of the field pattern: the leftmost position where the
pattern matches, with the captured group. -/
def captureFieldL (name : List Char) : List Char → Option (List Char)
  | [] => none
  | c :: rest =>
    match matchFieldAt name (c :: rest) with
    | some r => some (captureBody none r)
    | none => captureFieldL name rest

/-- The `json.loads(f'"{new_content}"')` unescape attempt on a delta: on any
decode error the raw delta is returned (`streaming_parser.py:179-185`). -/
def unescapeDelta (d : List Char) : List Char :=
  match parseJString (d ++ ['"']) with
  | some (s, rest) => if skipJsonWs rest = [] then s else d
  | none => d

/-- `_extract_streaming_field_content`: re-match the field against the whole
buffer; if the captured value is longer than previously captured, store it
and return the unescaped new suffix. -/
def extractStreamingFieldContent (fn : FieldName) (s : ParserState) :
    ParserState × Option (List Char) :=
  match captureFieldL (fieldNameChars fn) s.buffer with
  | none => (s, none)
  | some currentContent =>
    let previousContent := getFieldBuffer s fn
    if previousContent.length < currentContent.length then
      (setFieldBuffer s fn currentContent,
       some (unescapeDelta (currentContent.drop previousContent.length)))
    else (s, none)

/-- The `chunk_type` tags of `StreamingChunk`. -/
inductive ChunkType where
  | voiceover
  | display
  | metadata
deriving DecidableEq

/-- The `StreamingChunk` dataclass (the unused `timestamp` omitted). -/
structure StreamingChunk where
  content : List Char
  chunkType : ChunkType
  isComplete : Bool

/-- The trailing `displayEnhancedText` branch of `_extract_field_content`.
The third component of the result is the narration injected to the voice
callback (always empty on this branch). -/
def extractDisplay (s : ParserState) :
    ParserState × Option StreamingChunk × List (List Char) :=
  let (s1, dm) := extractStreamingFieldContent .displayEnhancedText s
  match dm with
  | some d =>
    if d ≠ [] then (s1, some ⟨d, .display, false⟩, []) else (s1, none, [])
  | none => (s1, none, [])

/-- The `displayEnhancement` branch of `_extract_field_content`: on a parsed
token the flag is stored and the function returns at once — the
`voice_disabled` assignment below the `return` only runs when `json.loads`
failed (`streaming_parser.py:126-141`). -/
def extractEnhancementAndDisplay (s : ParserState) :
    ParserState × Option StreamingChunk × List (List Char) :=
  let (s1, em) := extractStreamingFieldContent .displayEnhancement s
  match em with
  | some e =>
    if e ≠ [] then
      match pyJsonLoads (pyLower e) with
      | some v => ({ s1 with enhancementFlag := some v }, some ⟨e, .metadata, false⟩, [])
      | none =>
        extractDisplay
          (if isJsonFalse s1.enhancementFlag then { s1 with voiceDisabled := true } else s1)
    else extractDisplay s1
  | none => extractDisplay s1

/-- `_extract_field_content`: voice first (word-by-word injection unless
`voice_disabled`), then the enhancement flag, then the display text.  The
narration component lists the strings handed to the voice-injection
callback, each split word with a trailing space. -/
def extractFieldContent (s : ParserState) :
    ParserState × Option StreamingChunk × List (List Char) :=
  let (s1, vm) := extractStreamingFieldContent .voiceOverText s
  match vm with
  | some v =>
    if v ≠ [] ∧ ¬s1.voiceDisabled then
      (s1, some ⟨v, .voiceover, false⟩, (pySplit v).map (fun w => w ++ [' ']))
    else extractEnhancementAndDisplay s1
  | none => extractEnhancementAndDisplay s1

/-- `process_chunk`: an empty chunk returns immediately without touching the
buffer; otherwise the chunk is appended and field extraction runs. -/
def processChunk (s : ParserState) (chunk : List Char) :
    ParserState × Option StreamingChunk × List (List Char) :=
  if chunk = [] then (s, none, [])
  else extractFieldContent { s with buffer := s.buffer ++ chunk }

/-- The raw (pre-unescape) `voiceOverText` suffix the voice extraction of
`process_chunk` captures on this chunk, observed without running it. -/
def voiceRawDelta (s : ParserState) (chunk : List Char) : Option (List Char) :=
  if chunk = [] then none
  else
    match captureFieldL (fieldNameChars .voiceOverText) (s.buffer ++ chunk) with
    | some cur =>
      if s.fieldVoiceOverText.length < cur.length then
        some (cur.drop s.fieldVoiceOverText.length)
      else none
    | none => none

/-- A run of `process_chunk` over a fragment sequence, with its traces:
injected narration strings, emitted (unescaped) voice-over deltas, and the
raw captured voice-over suffixes. -/
structure ParseRun where
  state : ParserState
  narration : List (List Char)
  voiceDeltas : List (List Char)
  rawVoiceDeltas : List (List Char)

/-- The voice-over content of an emitted chunk, if any. -/
def chunkVoiceDelta : Option StreamingChunk → List (List Char)
  | some ch => if ch.chunkType = .voiceover then [ch.content] else []
  | none => []

/-- Feeds the fragment list to the parser in order, collecting the traces. -/
def runParser (s : ParserState) : List (List Char) → ParseRun
  | [] => ⟨s, [], [], []⟩
  | c :: cs =>
    let raw := voiceRawDelta s c
    let (s1, ch, words) := processChunk s c
    let rest := runParser s1 cs
    ⟨rest.state, words ++ rest.narration, chunkVoiceDelta ch ++ rest.voiceDeltas,
      raw.toList ++ rest.rawVoiceDeltas⟩

/-! ## `finalize()` -/

/-- The shared `EnhancementDecision` pydantic schema (`schemas.py`):
a required boolean, a required string, an optional string defaulting to
`None`. -/
structure EnhancementDecision where
  displayEnhancement : Bool
  displayEnhancedText : String
  voiceOverText : Option String
deriving DecidableEq

/-- The guard `self.buffer.strip().endswith('}')` of `finalize`. -/
def endsWithRBrace (cs : List Char) : Bool :=
  match (pyStrip cs).getLast? with
  | some c => c = '\x7d'
  | none => false

/-- First alternative of the fence pattern, anchored at a line start: three
backticks, an optional `json`, an optional newline.  Returns whether the
match ended on a consumed newline (so the next position is a line start)
and the rest. -/
def fenceAlt1 (cs : List Char) : Option (Bool × List Char) :=
  match dropPrefixL ['\x60', '\x60', '\x60'] cs with
  | none => none
  | some r1 =>
    let r2 := (dropPrefixL ['j', 's', 'o', 'n'] r1).getD r1
    match r2 with
    | '\n' :: r3 => some (true, r3)
    | _ => some (false, r2)

/-- Whether the position is a line end (`$` with `re.MULTILINE`). -/
def lineEndHere : List Char → Bool
  | [] => true
  | '\n' :: _ => true
  | _ => false

/-- Second fence alternative without the optional leading newline. -/
def fenceAlt2NoNl (cs : List Char) : Option (List Char) :=
  match cs with
  | '\x60' :: '\x60' :: '\x60' :: r => if lineEndHere r then some r else none
  | _ => none

/-- Second alternative of the fence pattern: an optional newline (greedy)
then three backticks at a line end. -/
def fenceAlt2 (cs : List Char) : Option (List Char) :=
  match cs with
  | '\n' :: '\x60' :: '\x60' :: '\x60' :: r =>
    if lineEndHere r then some r else fenceAlt2NoNl cs
  | _ => fenceAlt2NoNl cs

/-- The scan of `re.sub` over the original text for the code-fence pattern,
deleting matches.  Fuel is the remaining length; every step consumes at
least one character. -/
def fenceSubGo : Nat → Bool → List Char → List Char
  | 0, _, cs => cs
  | _ + 1, _, [] => []
  | fuel + 1, atLineStart, c :: rest =>
    match (if atLineStart then fenceAlt1 (c :: rest) else none) with
    | some (nl, r) => fenceSubGo fuel nl r
    | none =>
      match fenceAlt2 (c :: rest) with
      | some r => fenceSubGo fuel false r
      | none => c :: fenceSubGo fuel (c == '\n') rest

/-- The markdown-fence cleanup
`re.sub(r'^```(?:json)?\n?|\n?```$', '', buffer, flags=re.MULTILINE)`. -/
def stripCodeFence (cs : List Char) : List Char := fenceSubGo cs.length true cs

/-- The last-wins lookup a python `dict` built from a JSON object performs
on duplicate keys. -/
def lookupJsonField (fields : List (List Char × JsonValue)) (key : List Char) :
    Option JsonValue :=
  (fields.reverse.find? (fun kv => kv.1 == key)).map Prod.snd

/-- Pydantic validation of `EnhancementDecision(**parsed_data)`: a required
boolean, a required string, an optional string-or-null; extra keys are
ignored.  (Pydantic's lax scalar coercions — `0`/`1` or `"true"` for a
boolean — are outside every input the claims exercise and are modelled as
failures.) -/
def validateEnhancementDecision (v : JsonValue) : Option EnhancementDecision :=
  match v with
  | .obj fields =>
    match lookupJsonField fields "displayEnhancement".data with
    | some (.bool b) =>
      match lookupJsonField fields "displayEnhancedText".data with
      | some (.str t) =>
        match lookupJsonField fields "voiceOverText".data with
        | none => some ⟨b, t.asString, none⟩
        | some .null => some ⟨b, t.asString, none⟩
        | some (.str s) => some ⟨b, t.asString, some s.asString⟩
        | some _ => none
      | _ => none
    | _ => none
  | _ => none

/-- The fallback reconstruction of `finalize`
(`streaming_parser.py:214-227`): the captured flag (default `False`) and
the captured field texts; a non-boolean captured flag fails pydantic
validation and the fallback `except` returns `None`. -/
def fallbackFromFields (s : ParserState) : Option EnhancementDecision :=
  match s.enhancementFlag.getD (JsonValue.bool false) with
  | .bool b =>
    some ⟨b, s.fieldDisplayEnhancedText.asString, some s.fieldVoiceOverText.asString⟩
  | _ => none

/-- `finalize`: whole-buffer parsing is attempted only when the stripped
buffer ends with a closing brace; a parse or validation failure falls back
to the per-field reconstruction; otherwise the function reaches its final
`return None`. -/
def finalize (s : ParserState) : Option EnhancementDecision :=
  if endsWithRBrace s.buffer then
    match pyJsonLoads (stripCodeFence (pyStrip s.buffer)) with
    | some v =>
      match validateEnhancementDecision v with
      | some d => some d
      | none => fallbackFromFields s
    | none => fallbackFromFields s
  else none

/-! ## `ChatHistoryManager` (`app/chat_history_manager.py`)

Every mutator runs under the manager's single lock, so the store is
modelled by pure functions on the thread map (a python `dict` preserving
insertion order). -/

/-- An OpenAI-format history entry as the manager builds it. -/
structure PyMessage where
  role : String
  content : Option String
  name : Option String
  id : Option String
  functionCall : Option (String × String)
deriving DecidableEq

/-- The `_history` map: thread id to message list, in insertion order. -/
abbrev ChatHistoryMap := List (String × List PyMessage)

/-- Dictionary lookup of a thread's history. -/
def lookupThread : ChatHistoryMap → String → Option (List PyMessage)
  | [], _ => none
  | (t, h) :: rest, tid => if t = tid then some h else lookupThread rest tid

/-- Dictionary assignment of a thread's history (a no-op when absent; the
manager always ensures the key first). -/
def updateThread : ChatHistoryMap → String → List PyMessage → ChatHistoryMap
  | [], _, _ => []
  | (t, h) :: rest, tid, newH =>
    if t = tid then (t, newH) :: rest else (t, h) :: updateThread rest tid newH

/-- `_ensure_thread_exists`: lazily creates an empty history. -/
def ensureThreadExists (store : ChatHistoryMap) (tid : String) : ChatHistoryMap :=
  match lookupThread store tid with
  | some _ => store
  | none => store ++ [(tid, [])]

/-- `_trim_history_if_needed`: when the history exceeds the bound, keep only
the most recent `max_history_per_thread` entries (drop the excess from the
head). -/
def trimHistoryIfNeeded (maxHistoryPerThread : Nat) (history : List PyMessage) :
    List PyMessage :=
  if maxHistoryPerThread < history.length then
    history.drop (history.length - maxHistoryPerThread)
  else history

/-- The message `add_user_message` formats. -/
def mkUserMessage (message : String) (messageId : Option String) : PyMessage :=
  { role := "user", content := some message, name := none, id := messageId,
    functionCall := none }

/-- `add_user_message`: ensure the thread, append the formatted message,
then trim.  (The metadata timestamp update does not touch the history.) -/
def addUserMessage (maxHistoryPerThread : Nat) (store : ChatHistoryMap) (tid : String)
    (message : String) (messageId : Option String) : ChatHistoryMap :=
  let store1 := ensureThreadExists store tid
  let h := (lookupThread store1 tid).getD [] ++ [mkUserMessage message messageId]
  updateThread store1 tid (trimHistoryIfNeeded maxHistoryPerThread h)

/-! ## `app/queues.py` -/

/-- The two module-level channels; `None` is the pre-`initialize_queues`
state. -/
structure StageQueues (A B : Type) where
  llmMessageQueue : Option (List A)
  rawLlmOutputQueue : Option (List B)
deriving DecidableEq

/-- Outcome of a `put`: the uninitialized `RuntimeError`, suspension on a
full bounded queue, or the enqueued state. -/
inductive PutResult (Q : Type) where
  | uninitError
  | blockedFull (state : Q)
  | enqueued (state : Q)
deriving DecidableEq

/-- Outcome of a `get`: the uninitialized `RuntimeError`, suspension on an
empty queue, or the dequeued item with the new state. -/
inductive GetResult (Q V : Type) where
  | uninitError
  | blockedEmpty (state : Q)
  | got (value : V) (state : Q)
deriving DecidableEq

/-- `enqueue_llm_message`: raises `RuntimeError` before touching the queue
when it is not initialized; otherwise an `asyncio.Queue.put` (suspending at
capacity — `maxsize <= 0` means unbounded). -/
def enqueueLlmMessage {A B : Type} (cap : Nat) (st : StageQueues A B) (m : A) :
    PutResult (StageQueues A B) :=
  match st.llmMessageQueue with
  | none => .uninitError
  | some xs =>
    if 0 < cap ∧ cap ≤ xs.length then .blockedFull st
    else .enqueued { st with llmMessageQueue := some (xs ++ [m]) }

/-- `get_raw_llm_output`: raises `RuntimeError` before touching the queue
when it is not initialized; otherwise an `asyncio.Queue.get` (suspending
when empty). -/
def getRawLlmOutput {A B : Type} (st : StageQueues A B) :
    GetResult (StageQueues A B) B :=
  match st.rawLlmOutputQueue with
  | none => .uninitError
  | some [] => .blockedEmpty st
  | some (x :: xs) => .got x { st with rawLlmOutputQueue := some xs }

/-! ## `inject_voice_over_to_all_agents` (`app/vis_processor.py:57-83`) -/

/-- A registered voice agent: its `inject_tts_voice_over` entrypoint, which
either completes or fails with an error message. -/
structure VoiceAgent where
  injectTtsVoiceOver : String → Except String Unit

/-- The narration fan-out: a no-op on empty or whitespace-only text and on
an empty registry; otherwise every agent's entrypoint runs and
`asyncio.gather(..., return_exceptions=True)` collects each outcome without
letting any failure escape or stop the others.  The result is the list of
per-agent outcomes, in registry order. -/
def injectVoiceOverToAllAgents (voiceText : String) (agents : List VoiceAgent) :
    List (Except String Unit) :=
  if voiceText.data = [] ∨ pyStrip voiceText.data = [] then []
  else if agents.isEmpty then []
  else agents.map (fun a => a.injectTtsVoiceOver voiceText)

/-! ## `make_enhancement_decision_streaming`
(`agent/enhanced_mcp_client_agent.py:460-694`)

Each loop iteration streams one completion round.  A round's observable
outcome is one of: a `process_enhancement_decision` call (with whatever
arguments survived `json.loads`), a real tool call, free content with no
function call (an empty stream behaves as empty content), or a
timeout/exception, which `break`s out of the loop. -/

/-- Arguments of a `process_enhancement_decision` call after
`args.get(...)`: each field may be missing. -/
structure DecisionArgs where
  displayEnhancement : Option Bool
  displayEnhancedText : Option String
  voiceOverText : Option String
deriving DecidableEq

/-- The observable outcome of one streaming round. -/
inductive RoundOutcome where
  | finalizeCall (args : DecisionArgs)
  | realTool (name : String)
  | contentOnly (content : String)
  | roundFailure
deriving DecidableEq

/-- The fixed acknowledgment narration used by the fallback paths. -/
def ackVoiceText : String := "I used tools to help answer your question."

/-- The fallback decision built after the loop exits without a
`process_enhancement_decision` call
(`enhanced_mcp_client_agent.py:682-686`). -/
def fallbackDecision (assistantResponse : String) (toolsUsed : Nat) :
    EnhancementDecision :=
  { displayEnhancement := toolsUsed != 0,
    displayEnhancedText := assistantResponse,
    voiceOverText := some (if toolsUsed != 0 then ackVoiceText else "") }

/-- The `while iteration < max_iterations` loop: `i` is the next round's
index, `fuel` the remaining iterations, `toolsUsed` the length of
`tools_used`.  A real tool call (even one whose execution timed out and
returned an error string) appends to `tools_used` and continues; a
timeout or exception of the round itself `break`s to the fallback. -/
def decisionLoopGo (assistantResponse : String) (rounds : Nat → RoundOutcome) :
    Nat → Nat → Nat → EnhancementDecision
  | _, 0, toolsUsed => fallbackDecision assistantResponse toolsUsed
  | i, fuel + 1, toolsUsed =>
    match rounds i with
    | .finalizeCall args =>
      { displayEnhancement := args.displayEnhancement.getD false,
        displayEnhancedText := args.displayEnhancedText.getD assistantResponse,
        voiceOverText := some (args.voiceOverText.getD "") }
    | .realTool _ => decisionLoopGo assistantResponse rounds (i + 1) fuel (toolsUsed + 1)
    | .contentOnly content =>
      { displayEnhancement := toolsUsed != 0,
        displayEnhancedText := if content = "" then assistantResponse else content,
        voiceOverText := some (if toolsUsed != 0 then ackVoiceText else "") }
    | .roundFailure => fallbackDecision assistantResponse toolsUsed

/-- `max_iterations = 5`. -/
def maxIterations : Nat := 5

/-- The decision loop entry point: iteration budget 5, no tools used yet. -/
def makeEnhancementDecisionStreaming (assistantResponse : String)
    (rounds : Nat → RoundOutcome) : EnhancementDecision :=
  decisionLoopGo assistantResponse rounds 0 maxIterations 0

/-! ## `VisualizationProcessor.process_loop` (`app/vis_processor.py:210-517`) -/

/-- One dequeued queue item, with the metadata fields the loop reads.  The
`RawTurn` contract guarantees a `source` tag; an absent assistant response
behaves as the empty string (`item.get` returns `None`, and both are falsy). -/
structure RawItem where
  source : String
  assistantResponse : String
  threadId : Option String
  messageId : Option String
deriving DecidableEq

/-- The tagged outbound messages the loop can enqueue, as built by the
`create_*` helpers of `app/queues.py`. -/
inductive OutboundMessage where
  | enhancementStarted (content : String)
  | c1Token (id : String) (content : String)
  | chatDone (id : String)
  | voiceResponse (content : String) (voiceText : Option String) (isVoiceOverOnly : Bool)
  | textChatResponse (content : String) (threadId : Option String)
deriving DecidableEq

/-- Lower-case hex digit. -/
def hexDigitChar (n : Nat) : Char :=
  if n < 10 then Char.ofNat ('0'.toNat + n) else Char.ofNat ('a'.toNat + n - 10)

/-- A `\uXXXX` escape. -/
def uEscape (n : Nat) : List Char :=
  ['\\', 'u', hexDigitChar (n / 4096 % 16), hexDigitChar (n / 256 % 16),
   hexDigitChar (n / 16 % 16), hexDigitChar (n % 16)]

/-- How `json.dumps` (default `ensure_ascii=True`) renders one character
inside a string. -/
def jsonDumpEscapeChar (c : Char) : List Char :=
  if c = '"' then ['\\', '"']
  else if c = '\\' then ['\\', '\\']
  else if c = '\n' then ['\\', 'n']
  else if c = '\x0d' then ['\\', 'r']
  else if c = '\t' then ['\\', 't']
  else if c = '\x08' then ['\\', 'b']
  else if c = '\x0c' then ['\\', 'f']
  else if c.toNat < 0x20 then uEscape c.toNat
  else if c.toNat < 0x7f then [c]
  else if c.toNat ≤ 0xffff then uEscape c.toNat
  else
    uEscape (0xd800 + (c.toNat - 0x10000) / 0x400) ++
      uEscape (0xdc00 + (c.toNat - 0x10000) % 0x400)

/-- `json.dumps` of a python string. -/
def pyJsonDumpsStr (s : String) : String :=
  ('"' :: (s.data.map jsonDumpEscapeChar).flatten ++ ['"']).asString

/-- The simple-card fallback payload (`vis_processor.py:445-460`), the exact
`json.dumps` text wrapped in content tags. -/
def simpleCardPayload (displayText : String) : String :=
  "<content>\x7b\"component\": \x7b\"component\": \"Card\", \"props\": " ++
    "\x7b\"children\": [\x7b\"component\": \"TextContent\", \"props\": " ++
    "\x7b\"textMarkdown\": " ++ pyJsonDumpsStr displayText ++
    "\x7d\x7d]\x7d\x7d\x7d</content>"

/-- The mid-stream visualization error payload (`vis_processor.py:412-420`). -/
def visualizationErrorPayload (errMsg : String) : String :=
  "<content>\x7b\"component\": \"Callout\", \"props\": \x7b\"variant\": \"warning\", " ++
    "\"title\": \"Visualization Error\", \"description\": " ++
    pyJsonDumpsStr ("Failed to generate UI: " ++ errMsg) ++ "\x7d\x7d</content>"

/-- The `create_enhancement_started` default note. -/
def enhancementStartedNote : String := "Generating enhanced display…"

/-- Stands in for `str(uuid.uuid4())` when the item carries no
`message_id`; its value never matters to a claim. -/
def generatedUuid : String := "generated-uuid"

/-- The outcome of the Thesys streaming call: a completed chunk stream, or a
failure after some chunks were already relayed. -/
inductive ThesysOutcome where
  | streamed (chunks : List String)
  | failedAfter (chunksBefore : List String) (errDescription : String)
deriving DecidableEq

/-- Environment of one loop iteration: whether a Thesys client exists, the
Thesys stream outcome, whether the decision step raised (the `except` at
`vis_processor.py:277`), and the decision the streaming agent returns when
it does not raise. -/
structure WorkerEnv where
  thesysAvailable : Bool
  thesys : ThesysOutcome
  decisionRaises : Bool
  streamingDecision : EnhancementDecision
deriving DecidableEq

/-- What one iteration body did with a dequeued item: whether an enhancement
decision was produced and which messages were enqueued, in order. -/
structure TurnResult where
  decided : Bool
  emitted : List OutboundMessage
deriving DecidableEq

/-- The loop body from the point the decision is extracted
(`vis_processor.py:287` on): the `enhancement_started` indicator is sent
whenever `displayEnhancement` is true and the `else` branch `continue`s —
for every source — when it is false; then the (unreachable) voice early
exit, the Thesys streaming step, or the simple-card fallback. -/
def processAfterDecision (item : RawItem) (env : WorkerEnv)
    (decision : EnhancementDecision) : List OutboundMessage :=
  if decision.displayEnhancement then
    let startMsg := OutboundMessage.enhancementStarted enhancementStartedNote
    if item.source = "voice-agent" ∧ decision.displayEnhancement = false then
      [startMsg]
    else
      let assistantMessageId := item.messageId.getD generatedUuid
      if decision.displayEnhancement && env.thesysAvailable then
        match env.thesys with
        | .streamed chunks =>
          startMsg :: chunks.map (fun c => .c1Token assistantMessageId c) ++
            [.chatDone assistantMessageId]
        | .failedAfter chunksBefore err =>
          let payload := visualizationErrorPayload err
          let errMsg :=
            if item.source = "text_chat" then
              OutboundMessage.textChatResponse payload item.threadId
            else OutboundMessage.voiceResponse payload (some "") false
          startMsg :: chunksBefore.map (fun c => .c1Token assistantMessageId c) ++ [errMsg]
      else
        let payload := simpleCardPayload decision.displayEnhancedText
        let cardMsg :=
          if item.source = "text_chat" then
            OutboundMessage.textChatResponse payload item.threadId
          else OutboundMessage.voiceResponse payload (some "") false
        [startMsg, cardMsg]
  else []

/-- The iteration body after a successful dequeue: the text-chat bypass
flag, the empty-response skip, the decision step (the inner `except`
substitutes the no-enhancement fallback decision), then
`processAfterDecision`. -/
def processTurnBody (item : RawItem) (env : WorkerEnv) : TurnResult :=
  let bypassEnhancement := item.source = "text_chat"
  if item.assistantResponse = "" then { decided := false, emitted := [] }
  else
    let decision :=
      if env.decisionRaises then
        { displayEnhancement := false, displayEnhancedText := item.assistantResponse,
          voiceOverText := some "" }
      else if bypassEnhancement then
        { displayEnhancement := true, displayEnhancedText := item.assistantResponse,
          voiceOverText := none }
      else env.streamingDecision
    { decided := true, emitted := processAfterDecision item env decision }

/-- How the `await get_raw_llm_output()` at the top of the iteration ended. -/
inductive FetchResult (I : Type) where
  | ok (item : I)
  | raisedErr
  | cancelled
deriving DecidableEq

/-- How the rest of the iteration body ended. -/
inductive BodyResult where
  | completed
  | raisedGeneric
  | cancelledInFlight
deriving DecidableEq

/-- Control-flow record of one iteration of `process_loop`. -/
structure IterationTrace where
  gotItem : Bool
  acked : Bool
  cancelPropagated : Bool
  errorHandled : Bool
deriving DecidableEq

/-- The `try`/`except CancelledError`/`except Exception`/`finally` skeleton
of one iteration (`vis_processor.py:222-515`): `got_item` is set right
after the dequeue returns (no suspension point between), the generic
handler enqueues an error card, cancellation re-raises, and the `finally`
calls `mark_raw_llm_output_done()` exactly when `got_item` is set. -/
def processIteration {I : Type} (fetch : FetchResult I) (body : I → BodyResult) :
    IterationTrace :=
  match fetch with
  | .cancelled =>
    { gotItem := false, acked := false, cancelPropagated := true, errorHandled := false }
  | .raisedErr =>
    { gotItem := false, acked := false, cancelPropagated := false, errorHandled := true }
  | .ok item =>
    match body item with
    | .completed =>
      { gotItem := true, acked := true, cancelPropagated := false, errorHandled := false }
    | .raisedGeneric =>
      { gotItem := true, acked := true, cancelPropagated := false, errorHandled := true }
    | .cancelledInFlight =>
      { gotItem := true, acked := true, cancelPropagated := true, errorHandled := false }

/-- Whether the dequeue completed (`got_item` in the source). -/
def fetchGotItem {I : Type} : FetchResult I → Bool
  | .ok _ => true
  | _ => false

/-! ## Supporting lemmas -/

/-- A boolean prefix certifies the append-drop decomposition. -/
theorem isPrefixL_append_drop : ∀ (p c : List Char), isPrefixL p c = true →
    p ++ c.drop p.length = c := by
  intro p
  induction p with
  | nil => intro c _; simp
  | cons a as ih =>
    intro c h
    cases c with
    | nil => simp [isPrefixL] at h
    | cons b bs =>
      simp only [isPrefixL, Bool.and_eq_true, decide_eq_true_eq] at h
      simp only [List.length_cons, List.drop_succ_cons, List.cons_append, h.1]
      exact congrArg (b :: ·) (ih bs h.2)

/-- Extraction of a non-voice field leaves the voice field buffer alone. -/
theorem extractStreamingFieldContent_fieldVO (fn : FieldName) (s : ParserState)
    (h : fn ≠ FieldName.voiceOverText) :
    ((extractStreamingFieldContent fn s).1).fieldVoiceOverText = s.fieldVoiceOverText := by
  unfold extractStreamingFieldContent
  cases captureFieldL (fieldNameChars fn) s.buffer with
  | none => rfl
  | some cur =>
    dsimp only
    split
    · cases fn with
      | displayEnhancement => rfl
      | displayEnhancedText => rfl
      | voiceOverText => exact absurd rfl h
    · rfl

/-- The display branch leaves the voice field buffer alone. -/
theorem extractDisplay_fieldVO (s : ParserState) :
    ((extractDisplay s).1).fieldVoiceOverText = s.fieldVoiceOverText := by
  have hpres := extractStreamingFieldContent_fieldVO .displayEnhancedText s (by simp)
  unfold extractDisplay
  rcases hx : extractStreamingFieldContent .displayEnhancedText s with ⟨s1, dm⟩
  rw [hx] at hpres
  cases dm with
  | none => exact hpres
  | some d =>
    dsimp only
    split
    · exact hpres
    · exact hpres

/-- The enhancement-then-display branch leaves the voice field buffer alone. -/
theorem extractEnhancementAndDisplay_fieldVO (s : ParserState) :
    ((extractEnhancementAndDisplay s).1).fieldVoiceOverText = s.fieldVoiceOverText := by
  have hpres := extractStreamingFieldContent_fieldVO .displayEnhancement s (by simp)
  unfold extractEnhancementAndDisplay
  rcases hx : extractStreamingFieldContent .displayEnhancement s with ⟨s1, em⟩
  rw [hx] at hpres
  cases em with
  | none => rw [extractDisplay_fieldVO]; exact hpres
  | some e =>
    dsimp only
    split
    · cases hj : pyJsonLoads (pyLower e) with
      | some v => exact hpres
      | none =>
        dsimp only
        split
        · rw [extractDisplay_fieldVO]; exact hpres
        · rw [extractDisplay_fieldVO]; exact hpres
    · rw [extractDisplay_fieldVO]; exact hpres

/-- Whether one chunk keeps the captured voice value an extension of the
previous capture (true in any ordinary stream, where the leftmost field
match is stable and only grows). -/
def voiceStableStep (s : ParserState) (c : List Char) : Bool :=
  c.isEmpty ||
    (match captureFieldL (fieldNameChars .voiceOverText) (s.buffer ++ c) with
     | some cur => isPrefixL s.fieldVoiceOverText cur
     | none => true)

/-- `voiceStableStep` along a whole run. -/
def voiceStable : ParserState → List (List Char) → Bool
  | _, [] => true
  | s, c :: cs => voiceStableStep s c && voiceStable (processChunk s c).1 cs

/-- One stable chunk extends the voice field buffer by exactly the raw
captured delta. -/
theorem processChunk_fieldVO_step (s : ParserState) (c : List Char)
    (hstable : voiceStableStep s c = true) :
    ((processChunk s c).1).fieldVoiceOverText =
      s.fieldVoiceOverText ++ (voiceRawDelta s c).getD [] := by
  by_cases hc : c = []
  · subst hc
    simp [processChunk, voiceRawDelta]
  · have hc' : c.isEmpty = false := by simpa [List.isEmpty_iff] using hc
    unfold voiceStableStep at hstable
    rw [hc'] at hstable
    simp only [Bool.false_or] at hstable
    unfold processChunk voiceRawDelta
    rw [if_neg hc, if_neg hc]
    unfold extractFieldContent
    rcases hx : extractStreamingFieldContent .voiceOverText
        { s with buffer := s.buffer ++ c } with ⟨s1, vm⟩
    have hsfc := hx
    unfold extractStreamingFieldContent at hsfc
    have hfv1 : s1.fieldVoiceOverText =
        s.fieldVoiceOverText ++
          (match captureFieldL (fieldNameChars .voiceOverText) (s.buffer ++ c) with
           | some cur =>
             if s.fieldVoiceOverText.length < cur.length then
               some (cur.drop s.fieldVoiceOverText.length)
             else none
           | none => none).getD [] := by
      cases hcap : captureFieldL (fieldNameChars .voiceOverText) (s.buffer ++ c) with
      | none =>
        rw [hcap] at hsfc
        cases hsfc
        simp
      | some cur =>
        rw [hcap] at hstable
        rw [hcap] at hsfc
        dsimp only [getFieldBuffer] at hsfc
        by_cases hlen : s.fieldVoiceOverText.length < cur.length
        · rw [if_pos hlen] at hsfc
          cases hsfc
          simp only [setFieldBuffer, hlen, if_pos, Option.getD_some]
          exact (isPrefixL_append_drop _ _ hstable).symm
        · rw [if_neg hlen] at hsfc
          cases hsfc
          simp [hlen]
    have hgoal : ((match vm with
        | some v =>
          if v ≠ [] ∧ ¬s1.voiceDisabled then
            (s1, some (⟨v, .voiceover, false⟩ : StreamingChunk),
              (pySplit v).map (fun w => w ++ [' ']))
          else extractEnhancementAndDisplay s1
        | none => extractEnhancementAndDisplay s1).1).fieldVoiceOverText =
          s1.fieldVoiceOverText := by
      cases vm with
      | none => exact extractEnhancementAndDisplay_fieldVO s1
      | some v =>
        dsimp only
        split
        · rfl
        · exact extractEnhancementAndDisplay_fieldVO s1
    dsimp only
    exact hgoal.trans hfv1

/-- The raw-delta law, generalized to any start state: along a stable run,
the voice field buffer grows by exactly the concatenation of the raw
captured deltas. -/
theorem runParser_rawVoiceDeltas (chunks : List (List Char)) :
    ∀ s : ParserState, voiceStable s chunks = true →
      (runParser s chunks).state.fieldVoiceOverText =
        s.fieldVoiceOverText ++ (runParser s chunks).rawVoiceDeltas.flatten := by
  induction chunks with
  | nil => intro s _; simp [runParser]
  | cons c cs ih =>
    intro s hst
    unfold voiceStable at hst
    simp only [Bool.and_eq_true] at hst
    have hstep := processChunk_fieldVO_step s c hst.1
    unfold runParser
    rcases hp : processChunk s c with ⟨s1, ch, words⟩
    have hs1 : s1.fieldVoiceOverText =
        s.fieldVoiceOverText ++ (voiceRawDelta s c).getD [] := by
      rw [hp] at hstep; exact hstep
    have htail := ih s1 (by rw [hp] at hst; exact hst.2)
    dsimp only
    rw [htail, hs1, List.flatten_append, ← List.append_assoc]
    congr 1
    cases voiceRawDelta s c with
    | none => simp
    | some d => simp

/-! ## Claim C1 -/

/-- C1 counterexample: feeding the single truncated fragment
`{"voiceOverText": "hi` (no closing brace) captures the field value `hi`,
yet `finalize()` returns `None` — not a reconstructed decision object as
the claim states. -/
theorem c1_finalize_counterexample :
    (runParser initParser ["\x7b\"voiceOverText\": \"hi".data]).state.fieldVoiceOverText
        = "hi".data
      ∧ finalize (runParser initParser ["\x7b\"voiceOverText\": \"hi".data]).state
        = none := by
  constructor
  · decide
  · decide

/-- C1 amended: `finalize()` never raises, but on a buffer whose stripped
text does not end with a closing brace (in particular truncated JSON) it
returns `None`; the per-field fallback reconstruction only applies when
whole-buffer parsing is attempted (the stripped buffer ends with `}`) and
fails. -/
theorem c1_finalize_truncated_none (s : ParserState)
    (h : endsWithRBrace s.buffer = false) : finalize s = none := by
  unfold finalize
  rw [h]
  rfl

/-- C1 witness: the amended theorem applied to the freshly constructed
parser, whose empty buffer ends with no closing brace. -/
theorem c1_finalize_truncated_none_witness :
    endsWithRBrace initParser.buffer = false ∧ finalize initParser = none :=
  ⟨by decide, c1_finalize_truncated_none initParser (by decide)⟩

/-! ## Claim C2 -/

/-- C2: a dequeued text-path turn whose final decision has
`displayEnhancement = false` (reachable through the decision-step `except`
fallback, `vis_processor.py:277-285`) produces zero outbound messages: the
`else: continue` at `vis_processor.py:310-312` skips every
`displayEnhancement=false` turn regardless of origin, so the static
fallback `text_chat_response` the claim requires is never sent (the
voice-only early exit at line 333 it would bypass is dead code). -/
theorem c2_text_no_enhancement_emits_nothing :
    processTurnBody
        { source := "text_chat", assistantResponse := "Here are the latest figures.",
          threadId := some "thread-1", messageId := none }
        { thesysAvailable := true, thesys := .streamed [], decisionRaises := true,
          streamingDecision :=
            { displayEnhancement := true, displayEnhancedText := "x",
              voiceOverText := none } }
      = { decided := true, emitted := [] } := by
  decide

/-! ## Claim C3 -/

/-- C3: after the fragment `{"displayEnhancement": "false", "voiceOverText": "`
the flag token is complete and resolves to `false`, yet `voice_disabled`
is still `false` — the `return` inside the `try`
(`streaming_parser.py:131-135`) precedes the disabling statement — and the
next fragment still forwards the narration word `hello ` to the sinks. -/
theorem c3_narration_after_false_flag :
    isJsonFalse
        ((processChunk initParser
          "\x7b\"displayEnhancement\": \"false\", \"voiceOverText\": \"".data).1).enhancementFlag
        = true
      ∧ ((processChunk initParser
          "\x7b\"displayEnhancement\": \"false\", \"voiceOverText\": \"".data).1).voiceDisabled
        = false
      ∧ (processChunk
          ((processChunk initParser
            "\x7b\"displayEnhancement\": \"false\", \"voiceOverText\": \"".data).1)
          "hello".data).2.2
        = ["hello ".data] := by
  refine ⟨by decide, by decide, by decide⟩

/-! ## Claim C4 -/

/-- Any run of the decision loop consisting of `m` real tool rounds and then
either fuel exhaustion or a failing round lands in the fallback with the
tool count incremented by `m`. -/
theorem decisionLoopGo_fallback (assistantResponse : String)
    (rounds : Nat → RoundOutcome) :
    ∀ (m i fuel toolsUsed : Nat), m ≤ fuel →
      (∀ d, d < m → ∃ nm, rounds (i + d) = RoundOutcome.realTool nm) →
      (m = fuel ∨ rounds (i + m) = RoundOutcome.roundFailure) →
      decisionLoopGo assistantResponse rounds i fuel toolsUsed =
        fallbackDecision assistantResponse (toolsUsed + m) := by
  intro m
  induction m with
  | zero =>
    intro i fuel toolsUsed _ _ hterm
    rcases hterm with hfuel | hfail
    · subst hfuel
      simp [decisionLoopGo]
    · cases fuel with
      | zero => simp [decisionLoopGo]
      | succ f =>
        simp only [Nat.add_zero] at hfail
        simp [decisionLoopGo, hfail]
  | succ m ih =>
    intro i fuel toolsUsed hle hreal hterm
    cases fuel with
    | zero => omega
    | succ f =>
      obtain ⟨nm, h0⟩ := hreal 0 (Nat.succ_pos m)
      simp only [Nat.add_zero] at h0
      have hrec : decisionLoopGo assistantResponse rounds i (f + 1) toolsUsed =
          decisionLoopGo assistantResponse rounds (i + 1) f (toolsUsed + 1) := by
        simp [decisionLoopGo, h0]
      rw [hrec]
      have hih := ih (i + 1) f (toolsUsed + 1) (by omega)
        (fun d hd => by
          obtain ⟨nm2, h2⟩ := hreal (d + 1) (by omega)
          exact ⟨nm2, by rwa [show i + (d + 1) = i + 1 + d by omega] at h2⟩)
        (by
          rcases hterm with hfuel | hfail
          · exact Or.inl (by omega)
          · exact Or.inr (by rwa [show i + (m + 1) = i + 1 + m by omega] at hfail))
      rw [hih, show toolsUsed + 1 + m = toolsUsed + (m + 1) by omega]

/-- C4: when the first `k ≤ 5` rounds are real tool invocations and then the
budget runs out (`k = 5`) or a round times out or errors, the loop returns
the fallback decision: `displayEnhancement` is whether any real tool was
invoked, `displayEnhancedText` is the original turn text, and
`voiceOverText` is the fixed acknowledgment when a tool was used, else the
empty string. -/
theorem c4_fallback_decision (assistantResponse : String)
    (rounds : Nat → RoundOutcome) (k : Nat) (hk : k ≤ 5)
    (hreal : ∀ d, d < k → ∃ nm, rounds d = RoundOutcome.realTool nm)
    (hterm : k = 5 ∨ rounds k = RoundOutcome.roundFailure) :
    makeEnhancementDecisionStreaming assistantResponse rounds =
      { displayEnhancement := k != 0,
        displayEnhancedText := assistantResponse,
        voiceOverText := some (if k != 0 then ackVoiceText else "") } := by
  unfold makeEnhancementDecisionStreaming maxIterations
  rw [decisionLoopGo_fallback assistantResponse rounds k 0 5 0 hk
    (fun d hd => by simpa using hreal d hd)
    (by simpa using hterm)]
  simp [fallbackDecision]

/-- C4 witness: one real tool round followed by a failing round yields the
fallback with `displayEnhancement = true` and the fixed acknowledgment. -/
theorem c4_fallback_decision_witness :
    makeEnhancementDecisionStreaming "The weather is sunny."
        (fun i => if i = 0 then .realTool "get-weather" else .roundFailure) =
      { displayEnhancement := true,
        displayEnhancedText := "The weather is sunny.",
        voiceOverText := some ackVoiceText } :=
  c4_fallback_decision "The weather is sunny."
    (fun i => if i = 0 then .realTool "get-weather" else .roundFailure) 1
    (by omega)
    (fun d hd => ⟨"get-weather", by
      have hd0 : d = 0 := Nat.lt_one_iff.mp hd
      subst hd0
      rfl⟩)
    (Or.inr rfl)

/-! ## Claim C5 -/

/-- Updating a present key makes the lookup return the new value. -/
theorem lookupThread_updateThread (store : ChatHistoryMap) (tid : String)
    (h : List PyMessage) (hmem : (lookupThread store tid).isSome) :
    lookupThread (updateThread store tid h) tid = some h := by
  induction store with
  | nil => simp [lookupThread] at hmem
  | cons kv rest ih =>
    by_cases heq : kv.1 = tid
    · simp [lookupThread, updateThread, heq]
    · simp only [lookupThread, updateThread, heq, if_false, if_neg heq] at hmem ⊢
      exact ih hmem

/-- Appending a fresh key makes the lookup return it. -/
theorem lookupThread_append_fresh (store : ChatHistoryMap) (tid : String)
    (h : List PyMessage) (habs : lookupThread store tid = none) :
    lookupThread (store ++ [(tid, h)]) tid = some h := by
  induction store with
  | nil => simp [lookupThread]
  | cons kv rest ih =>
    by_cases heq : kv.1 = tid
    · simp [lookupThread, heq] at habs
    · simp only [lookupThread, heq, if_neg heq, List.cons_append] at habs ⊢
      exact ih habs

/-- After `_ensure_thread_exists` the thread is present, with its previous
history (empty when it was just created). -/
theorem lookupThread_ensure (store : ChatHistoryMap) (tid : String) :
    lookupThread (ensureThreadExists store tid) tid =
      some ((lookupThread store tid).getD []) := by
  unfold ensureThreadExists
  cases hl : lookupThread store tid with
  | some h => simp [hl]
  | none => simpa using lookupThread_append_fresh store tid [] hl

/-- The trim is a drop from the head by the (truncated) excess. -/
theorem trimHistoryIfNeeded_eq_drop (maxH : Nat) (l : List PyMessage) :
    trimHistoryIfNeeded maxH l = l.drop (l.length - maxH) := by
  unfold trimHistoryIfNeeded
  split
  · rfl
  · rw [Nat.sub_eq_zero_of_le (Nat.le_of_not_lt (by assumption)), List.drop_zero]

/-- C5: one `add_user_message` leaves the thread with the old history plus
the new message, trimmed from the head by the excess over the bound; hence
the length never exceeds `max_history_per_thread`, and a thread already
holding exactly the (positive) maximum ends with exactly the maximum, the
oldest message removed and the order of the rest preserved. -/
theorem c5_append_trims_head (maxH : Nat) (store : ChatHistoryMap)
    (tid message : String) (messageId : Option String) :
    ((lookupThread (addUserMessage maxH store tid message messageId) tid).getD []
        = (((lookupThread store tid).getD []) ++ [mkUserMessage message messageId]).drop
            ((((lookupThread store tid).getD []).length + 1) - maxH))
    ∧ ((lookupThread (addUserMessage maxH store tid message messageId) tid).getD []).length
        ≤ maxH
    ∧ (((lookupThread store tid).getD []).length = maxH → 0 < maxH →
        (lookupThread (addUserMessage maxH store tid message messageId) tid).getD []
            = ((lookupThread store tid).getD []).drop 1 ++ [mkUserMessage message messageId]
          ∧ ((lookupThread (addUserMessage maxH store tid message messageId) tid).getD
              []).length = maxH) := by
  have hens := lookupThread_ensure store tid
  have hupd := lookupThread_updateThread (ensureThreadExists store tid) tid
    (trimHistoryIfNeeded maxH
      (((lookupThread (ensureThreadExists store tid) tid).getD []) ++
        [mkUserMessage message messageId]))
    (by rw [hens]; rfl)
  have hafter : (lookupThread (addUserMessage maxH store tid message messageId) tid).getD []
      = (((lookupThread store tid).getD []) ++ [mkUserMessage message messageId]).drop
          ((((lookupThread store tid).getD []).length + 1) - maxH) := by
    unfold addUserMessage
    rw [hupd, hens]
    simp only [Option.getD_some]
    rw [trimHistoryIfNeeded_eq_drop]
    simp
  refine ⟨hafter, ?_, ?_⟩
  · rw [hafter, List.length_drop]
    simp only [List.length_append, List.length_cons, List.length_nil]
    omega
  · intro hfull hpos
    constructor
    · rw [hafter, hfull, show maxH + 1 - maxH = 1 by omega,
        List.drop_append_of_le_length (by omega)]
    · rw [hafter, List.length_drop]
      simp only [List.length_append, List.length_cons, List.length_nil]
      omega

/-- C5 witness: with the bound 2 and a thread already holding two messages,
one more append leaves the two most recent messages in order. -/
theorem c5_append_trims_head_witness :
    (lookupThread
        (addUserMessage 2 [("t", [mkUserMessage "a" none, mkUserMessage "b" none])]
          "t" "c" none) "t").getD []
      = [mkUserMessage "b" none, mkUserMessage "c" none] := by
  have h := (c5_append_trims_head 2 [("t", [mkUserMessage "a" none, mkUserMessage "b" none])]
    "t" "c" none).2.2 (by decide) (by decide)
  rw [h.1]
  decide

/-! ## Claim C6 -/

/-- C6 counterexample: the single fragment `{"voiceOverText": "a\nb"}`
(with a two-character escape `\n` in the JSON text) emits the unescaped
delta `a`, newline, `b`, while the parser captures the raw value
`a\nb` in its field buffer — concatenating the emitted deltas (or the
injected narration words) does not reproduce the captured final value, nor
the `voiceOverText` of the finalized decision. -/
theorem c6_delta_concat_counterexample :
    (runParser initParser ["\x7b\"voiceOverText\": \"a\\nb\"\x7d".data]).voiceDeltas.flatten
        = "a\nb".data
      ∧ (runParser initParser
          ["\x7b\"voiceOverText\": \"a\\nb\"\x7d".data]).state.fieldVoiceOverText
        = "a\\nb".data
      ∧ (runParser initParser ["\x7b\"voiceOverText\": \"a\\nb\"\x7d".data]).voiceDeltas.flatten
        ≠ (runParser initParser
            ["\x7b\"voiceOverText\": \"a\\nb\"\x7d".data]).state.fieldVoiceOverText
      ∧ finalize (runParser initParser ["\x7b\"voiceOverText\": \"a\\nb\"\x7d".data]).state
        = some { displayEnhancement := false, displayEnhancedText := "",
                 voiceOverText := some "a\\nb" } := by
  refine ⟨by decide, by decide, by decide, by decide⟩

/-- C6 amended: it is the raw (pre-escape-decode) deltas whose in-order
concatenation equals the final `voiceOverText` value captured in the
parser's field buffer, provided each newly matched field value extends the
previously captured one (true whenever the buffer's leftmost field match
is stable, as in any single-object stream); the forwarded narration deltas
are the escape-decoded versions of these raw suffixes and can differ. -/
theorem c6_raw_delta_concat (chunks : List (List Char))
    (hstable : voiceStable initParser chunks = true) :
    (runParser initParser chunks).state.fieldVoiceOverText =
      (runParser initParser chunks).rawVoiceDeltas.flatten := by
  simpa [initParser] using runParser_rawVoiceDeltas chunks initParser hstable

/-- C6 witness: a two-fragment stream splitting the value `hello`; the raw
deltas `he` and `llo` concatenate to the captured final value. -/
theorem c6_raw_delta_concat_witness :
    voiceStable initParser ["\x7b\"voiceOverText\": \"he".data, "llo".data] = true
      ∧ (runParser initParser
          ["\x7b\"voiceOverText\": \"he".data, "llo".data]).state.fieldVoiceOverText
        = (runParser initParser
            ["\x7b\"voiceOverText\": \"he".data, "llo".data]).rawVoiceDeltas.flatten :=
  ⟨by decide, c6_raw_delta_concat _ (by decide)⟩

/-! ## Claim C7 -/

/-- C7: the `finally` acknowledgment (`mark_raw_llm_output_done`) runs
exactly when the dequeue completed in this iteration — for every possible
body outcome, including a generic exception and a cancellation in flight —
and never when the `get` itself raised or was cancelled. -/
theorem c7_ack_iff_dequeued (I : Type) (fetch : FetchResult I)
    (body : I → BodyResult) :
    (processIteration fetch body).acked = fetchGotItem fetch := by
  cases fetch with
  | ok item => cases h : body item <;> simp [processIteration, h, fetchGotItem]
  | raisedErr => rfl
  | cancelled => rfl

/-! ## Claim C8 -/

/-- C8: `put` and `get` against an uninitialized channel fail immediately
with the configuration error (`RuntimeError`), before any element is
enqueued or dequeued — the error outcome carries no successor state, so
the channel is untouched. -/
theorem c8_uninitialized_channel_error (A B : Type) (cap : Nat)
    (st : StageQueues A B) (m : A)
    (hllm : st.llmMessageQueue = none) (hraw : st.rawLlmOutputQueue = none) :
    enqueueLlmMessage cap st m = PutResult.uninitError
      ∧ getRawLlmOutput st = GetResult.uninitError := by
  constructor
  · unfold enqueueLlmMessage
    rw [hllm]
  · unfold getRawLlmOutput
    rw [hraw]

/-- C8 witness: both operations on the fresh (never-initialized) channel
pair fail with the configuration error. -/
theorem c8_uninitialized_channel_error_witness :
    enqueueLlmMessage 4 ({ llmMessageQueue := none, rawLlmOutputQueue := none } :
        StageQueues Nat Nat) 7 = PutResult.uninitError
      ∧ getRawLlmOutput ({ llmMessageQueue := none, rawLlmOutputQueue := none } :
          StageQueues Nat Nat) = GetResult.uninitError :=
  c8_uninitialized_channel_error Nat Nat 4 _ 7 rfl rfl

/-! ## Claim C9 -/

/-- C9: the narration broadcast is a no-op on whitespace-only text and on an
empty registry, and otherwise invokes every registered sink's injection
entrypoint, collecting each sink's own outcome — so one sink's failure
neither prevents delivery to the others nor escapes to the caller (the
result is the full outcome list, never an exception). -/
theorem c9_broadcast_isolation :
    (∀ (voiceText : String) (agents : List VoiceAgent),
        pyStrip voiceText.data = [] → injectVoiceOverToAllAgents voiceText agents = [])
      ∧ (∀ voiceText : String, injectVoiceOverToAllAgents voiceText [] = [])
      ∧ (∀ (voiceText : String) (agents : List VoiceAgent),
          pyStrip voiceText.data ≠ [] →
            (injectVoiceOverToAllAgents voiceText agents).length = agents.length
              ∧ ∀ a ∈ agents,
                  a.injectTtsVoiceOver voiceText ∈
                    injectVoiceOverToAllAgents voiceText agents) := by
  refine ⟨?_, ?_, ?_⟩
  · intro voiceText agents h
    unfold injectVoiceOverToAllAgents
    rw [if_pos (Or.inr h)]
  · intro voiceText
    unfold injectVoiceOverToAllAgents
    split
    · rfl
    · rfl
  · intro voiceText agents h
    have hne : ¬(voiceText.data = [] ∨ pyStrip voiceText.data = []) := by
      rintro (he | hs)
      · exact h (by rw [he]; rfl)
      · exact h hs
    unfold injectVoiceOverToAllAgents
    rw [if_neg hne]
    cases agents with
    | nil => exact ⟨rfl, by intro a ha; cases ha⟩
    | cons a as =>
      refine ⟨by simp, ?_⟩
      intro b hb
      simpa using List.mem_map_of_mem (fun x => x.injectTtsVoiceOver voiceText) hb

/-- C9 witness: whitespace-only text is a no-op even with a live sink, and
with two sinks — one failing — both entrypoints are invoked. -/
theorem c9_broadcast_isolation_witness :
    injectVoiceOverToAllAgents "  " [⟨fun _ => Except.ok ()⟩] = []
      ∧ (injectVoiceOverToAllAgents "Hi there"
          [⟨fun _ => Except.ok ()⟩, ⟨fun _ => Except.error "sink blew up"⟩]).length = 2 :=
  ⟨c9_broadcast_isolation.1 "  " _ (by decide),
   (c9_broadcast_isolation.2.2 "Hi there" _ (by decide)).1⟩

/-! ## Claim C10 -/

/-- C10: a dequeued turn whose assistant response is empty (or missing,
which `item.get` also renders falsy) is skipped before the decision step —
no decision is made and no outbound message is enqueued — and the
`finally` clause still acknowledges the dequeued item. -/
theorem c10_empty_response_skipped (item : RawItem) (env : WorkerEnv)
    (body : RawItem → BodyResult) (h : item.assistantResponse = "") :
    processTurnBody item env = { decided := false, emitted := [] }
      ∧ (processIteration (FetchResult.ok item) body).acked = true := by
  constructor
  · unfold processTurnBody
    rw [if_pos h]
  · cases hb : body item <;> simp [processIteration, hb]

/-- C10 witness: a voice-origin item with an empty assistant response. -/
theorem c10_empty_response_skipped_witness :
    processTurnBody
        { source := "voice-agent", assistantResponse := "", threadId := none,
          messageId := none }
        { thesysAvailable := true, thesys := .streamed ["chunk"], decisionRaises := false,
          streamingDecision :=
            { displayEnhancement := true, displayEnhancedText := "x", voiceOverText := none } }
      = { decided := false, emitted := [] } :=
  (c10_empty_response_skipped _ _ (fun _ => BodyResult.completed) rfl).1

end VrmSaas
